import Mathlib

set_option maxHeartbeats 1000000
set_option maxRecDepth 4000

/-!
Verification of the bitmask contradiction detector of `lib/checkassignif.cpp`
(class `CheckAssignIf`): the three analyses `assignIf`, `comparison` and
`multiCondition` are shallowly embedded over an indexed token stream, and the
spec claims about them are settled as theorems below the definitions.
-/

/-- A token of the analyzed stream: textual content, the name/number
classification flags used by the pattern matcher, the resolved variable
identity (0 = not a variable), the decoded numeric value of a number
token (`MathLib::toLongNumber`), the source line, and the index of the
matching bracket for linked bracket tokens. -/
structure Token where
  str : String
  isName : Bool
  isNumber : Bool
  varId : Nat
  numVal : Int
  linenr : Nat
  link : Option Nat
deriving DecidableEq

/-- Plain token with only a textual content. -/
def tokS (s : String) : Token := ⟨s, false, false, 0, 0, 0, none⟩

/-- Name token carrying a resolved variable identity. -/
def tokName (s : String) (v : Nat) : Token := ⟨s, true, false, v, 0, 0, none⟩

/-- Number token carrying its decoded value. -/
def tokNum (s : String) (n : Int) : Token := ⟨s, false, true, 0, n, 0, none⟩

/-- Bracket token carrying the index of its matching counterpart. -/
def tokLink (s : String) (l : Nat) : Token := ⟨s, false, false, 0, 0, 0, some l⟩

/-- `tok->str()` at index `i`; a missing token reads as the empty string,
which matches no pattern element. -/
def strAt (toks : List Token) (i : Nat) : String := (toks[i]?.map Token.str).getD ""

/-- `tok->varId()` at index `i` (0 when the token is missing). -/
def varIdAt (toks : List Token) (i : Nat) : Nat := (toks[i]?.map Token.varId).getD 0

/-- `tok->isNumber()` at index `i`, the `%num%` pattern class. -/
def numberAt (toks : List Token) (i : Nat) : Bool := (toks[i]?.map Token.isNumber).getD false

/-- `tok->isName()` at index `i`, the `%var%` pattern class. -/
def nameAt (toks : List Token) (i : Nat) : Bool := (toks[i]?.map Token.isName).getD false

/-- The `%any%` pattern class: some token must be present at index `i`. -/
def anyAt (toks : List Token) (i : Nat) : Bool := (toks[i]?).isSome

/-- `MathLib::toLongNumber(tok->strAt(..))`: decoded value of the number
token at index `i`. -/
def numAt (toks : List Token) (i : Nat) : Int := (toks[i]?.map Token.numVal).getD 0

/-- `tok->linenr()` at index `i`. -/
def lineAt (toks : List Token) (i : Nat) : Nat := (toks[i]?.map Token.linenr).getD 0

/-- `tok->link()` at index `i`: index of the matching bracket, if any. -/
def linkAt (toks : List Token) (i : Nat) : Option Nat :=
  match toks[i]? with
  | some t => t.link
  | none => none

/-- Finding of `CheckAssignIf::assignIfError`: anchor token index and the
reported constant truth value (`result`). -/
structure AssignIfFinding where
  anchor : Nat
  result : Bool
deriving DecidableEq

/-- The stop test of the forward scan (`assignIf`, line 55): an open
parenthesis, a closing brace, or another assignment ends the scan. -/
def isStopTok (t : Token) : Bool := t.str == "(" || t.str == "\x7d" || t.str == "="

/-- `Token::Match(tok2, "if ( %varid% %any% %num% &&|%oror%|)", varid)`
anchored at index `i` (line 57 of `assignIf`). -/
def ifMatchAt (toks : List Token) (varid : Nat) (i : Nat) : Bool :=
  strAt toks i == "if" && strAt toks (i+1) == "(" &&
  varIdAt toks (i+2) == varid && anyAt toks (i+3) && numberAt toks (i+4) &&
  (strAt toks (i+5) == "&&" || strAt toks (i+5) == "||" || strAt toks (i+5) == ")")

/-- The comparison test of `assignIf` (lines 60 and 62):
`(num & num2) != ((bitop=='&') ? num2 : num)`. -/
def assignIfCond (bitop : Char) (num num2 : Int) : Bool :=
  Int.land num num2 != (if bitop == '&' then num2 else num)

/-- Evaluation of a matched comparison (lines 58-63 of `assignIf`): an
`==` comparison reports always false, a `!=` comparison reports always
true, both exactly when `assignIfCond` holds; any other operator reports
nothing. -/
def evalIf (toks : List Token) (bitop : Char) (num : Int) (i : Nat) : Option AssignIfFinding :=
  let op := strAt toks (i+3)
  let num2 := numAt toks (i+4)
  if op == "==" && assignIfCond bitop num num2 then some ⟨i, false⟩
  else if op == "!=" && assignIfCond bitop num num2 then some ⟨i, true⟩
  else none

/-- The forward scan of `assignIf` (lines 54-66): from index `i`, stop
without a finding at a missing token or a stop token, evaluate and halt at
the first token matching the `if (...)` comparison pattern, otherwise step
to the next token.  The fuel argument only bounds the recursion; callers
pass the stream length, which the scan can never exhaust. -/
def scanFrom (toks : List Token) (varid : Nat) (bitop : Char) (num : Int) :
    Nat → Nat → Option AssignIfFinding
  | 0, _ => none
  | fuel+1, i =>
    match toks[i]? with
    | none => none
    | some tk =>
      if isStopTok tk then none
      else if ifMatchAt toks varid i then evalIf toks bitop num i
      else scanFrom toks varid bitop num fuel (i+1)

/-- `Token::Match(tok->tokAt(-2), "[;{}] %var% = %var% [&|] %num% ;")`
with the `=` anchored at index `i` (line 43 of `assignIf`); the leading
bound mirrors the null check of `tokAt(-2)` at the stream head. -/
def assignMatchAt (toks : List Token) (i : Nat) : Bool :=
  decide (2 ≤ i) &&
  (strAt toks (i-2) == ";" || strAt toks (i-2) == "\x7b" || strAt toks (i-2) == "\x7d") &&
  nameAt toks (i-1) && strAt toks i == "=" && nameAt toks (i+1) &&
  (strAt toks (i+2) == "&" || strAt toks (i+2) == "|") &&
  numberAt toks (i+3) && strAt toks (i+4) == ";"

/-- Handling of one `=` token by `CheckAssignIf::assignIf` (lines 43-66):
match the masked assignment, reject an unresolved variable identity and a
negative mask, then run the forward scan from the token after the mask. -/
def assignIfAt (toks : List Token) (i : Nat) : Option AssignIfFinding :=
  if assignMatchAt toks i then
    let varid := varIdAt toks (i-1)
    if varid == 0 then none
    else
      let bitop := (strAt toks (i+2)).front
      let num := numAt toks (i+3)
      if num < 0 then none
      else scanFrom toks varid bitop num toks.length (i+4)
  else none

/-- `CheckAssignIf::assignIf` (lines 34-69): every token of the stream is
tried as the `=` of a masked assignment; each qualifying assignment
contributes at most one finding. -/
def assignIf (toks : List Token) : List AssignIfFinding :=
  (List.range toks.length).filterMap (assignIfAt toks)

/-- Finding of `CheckAssignIf::comparisonError`: anchor token index and the
report arguments (bit operator, both values, comparison operator, proven
constant truth value). -/
structure ComparisonFinding where
  anchor : Nat
  bitop : String
  value1 : Int
  value2 : Int
  op : String
  result : Bool
deriving DecidableEq

/-- Tail of the inline pattern from the comparison operator on:
`==|!= %num% &&|%oror%|)` anchored at index `k`. -/
def compTail (toks : List Token) (k : Nat) : Bool :=
  (strAt toks k == "==" || strAt toks k == "!=") && numberAt toks (k+1) &&
  (strAt toks (k+2) == "&&" || strAt toks (k+2) == "||" || strAt toks (k+2) == ")")

/-- `Token::Match(tok, "&|%or% %num% )| ==|!= %num% &&|%oror%|)")` anchored
at index `i` (line 88 of `comparison`); the `)|` element is optional and is
consumed exactly when the token is a closing parenthesis. -/
def comparisonMatchAt (toks : List Token) (i : Nat) : Bool :=
  (strAt toks i == "&" || strAt toks i == "|") && numberAt toks (i+1) &&
  (if strAt toks (i+2) == ")" then compTail toks (i+3) else compTail toks (i+2))

/-- Index of the comparison operator token (`compareToken` of lines 93-98):
one past the optional closing parenthesis when it is present. -/
def compIdx (toks : List Token) (i : Nat) : Nat :=
  if strAt toks (i+2) == ")" then i+3 else i+2

/-- Validation of the optional closing parenthesis (lines 94-96): the token
immediately preceding its matching open bracket must be an opening
parenthesis or a logical conjunction/disjunction; a parenthesis whose open
bracket is the first token of the stream has no preceding token and fails. -/
def parenValid (toks : List Token) (i : Nat) : Bool :=
  match linkAt toks i with
  | some (l+1) =>
    strAt toks l == "(" || strAt toks l == "||" || strAt toks l == "&&"
  | _ => false

/-- The report test of `comparison` (lines 104-105):
`(tok->str() == "&" && (num1 & num2) != num2) || (tok->str() == "|" && (num1 | num2) != num2)`. -/
def comparisonCond (bitop : String) (num1 num2 : Int) : Bool :=
  (bitop == "&" && Int.land num1 num2 != num2) ||
  (bitop == "|" && Int.lor num1 num2 != num2)

/-- Handling of one candidate anchor by `CheckAssignIf::comparison`
(lines 88-108): match the inline pattern, reject negative literals,
validate the optional parenthesis, and report when `comparisonCond` holds. -/
def comparisonAt (toks : List Token) (i : Nat) : Option ComparisonFinding :=
  if comparisonMatchAt toks i then
    let num1 := numAt toks (i+1)
    if num1 < 0 then none
    else if strAt toks (i+2) == ")" && !(parenValid toks (i+2)) then none
    else
      let ct := compIdx toks i
      let num2 := numAt toks (ct+1)
      if num2 < 0 then none
      else if comparisonCond (strAt toks i) num1 num2 then
        some ⟨i, strAt toks i, num1, num2, strAt toks ct, strAt toks ct != "=="⟩
      else none
  else none

/-- `CheckAssignIf::comparison` (lines 82-111): the inline pattern is tried
at every token of the stream. -/
def comparison (toks : List Token) : List ComparisonFinding :=
  (List.range toks.length).filterMap (comparisonAt toks)

/-- Finding of `CheckAssignIf::multiConditionError`: anchor token index and
the cited source line of the first if of the chain. -/
structure MultiCondFinding where
  anchor : Nat
  line1 : Nat
deriving DecidableEq

/-- An if-scope of the symbol database, reduced to what `multiCondition`
reads: the scope-type test `type == Scope::eIf` and the index of the
`classDef` token that begins the controlling condition. -/
structure Scope where
  isIf : Bool
  classDef : Nat
deriving DecidableEq

/-- `Token::simpleMatch(tok2, "} else { if (")` anchored at index `j`
(line 151 of `multiCondition`). -/
def chainMatchAt (toks : List Token) (j : Nat) : Bool :=
  strAt toks j == "\x7d" && strAt toks (j+1) == "else" && strAt toks (j+2) == "\x7b" &&
  strAt toks (j+3) == "if" && strAt toks (j+4) == "("

/-- `Token::Match(opar, "( %varid% ==|& %num% &&|%oror%|)", varid)`
anchored at index `o` (line 161 of `multiCondition`). -/
def multiCondCondMatch (toks : List Token) (varid : Nat) (o : Nat) : Bool :=
  strAt toks o == "(" && varIdAt toks (o+1) == varid &&
  (strAt toks (o+2) == "==" || strAt toks (o+2) == "&") &&
  numberAt toks (o+3) &&
  (strAt toks (o+4) == "&&" || strAt toks (o+4) == "||" || strAt toks (o+4) == ")")

/-- Chain-cursor advance of one loop iteration (lines 153-158): jump from
the link of the else-if condition's open parenthesis, and when that lands
on `) ... open-brace` also skip the nested if-body through the brace link. -/
def advanceChain (toks : List Token) (j : Nat) : Option Nat :=
  match linkAt toks (j+4) with
  | none => none
  | some e =>
    if strAt toks e == ")" && strAt toks (e+1) == "\x7b" then linkAt toks (e+1)
    else some e

/-- The `} else { if (` walk of `multiCondition` (lines 150-170): a missing
cursor ends the loop, each matching link is advanced past and checked
against the first mask, and a link whose mask is a non-negative subset of
the first mask contributes one finding.  `none` signals fuel exhaustion;
the caller's fuel is one more than the stream length, which theorem
`multiCondWalk_terminates` below shows is never exhausted on streams with
forward bracket links. -/
def multiCondWalk (toks : List Token) (varid : Nat) (num1 : Int) (line1 : Nat) :
    Nat → Option Nat → Option (List MultiCondFinding)
  | _, none => some []
  | 0, some _ => none
  | fuel+1, some j =>
    if chainMatchAt toks j then
      let next := advanceChain toks j
      if multiCondCondMatch toks varid (j+4) then
        let num2 := numAt toks (j+7)
        if num2 < 0 then multiCondWalk toks varid num1 line1 fuel next
        else if Int.land num1 num2 == num2 then
          Option.map (fun fs => MultiCondFinding.mk (j+4) line1 :: fs)
            (multiCondWalk toks varid num1 line1 fuel next)
        else multiCondWalk toks varid num1 line1 fuel next
      else multiCondWalk toks varid num1 line1 fuel next
    else some []

/-- `Token::Match(i->classDef, "if ( %var% & %num% ) {")` anchored at
index `c` (line 140 of `multiCondition`). -/
def multiCondHeadMatch (toks : List Token) (c : Nat) : Bool :=
  strAt toks c == "if" && strAt toks (c+1) == "(" && nameAt toks (c+2) &&
  strAt toks (c+3) == "&" && numberAt toks (c+4) && strAt toks (c+5) == ")" &&
  strAt toks (c+6) == "\x7b"

/-- Handling of one scope by `CheckAssignIf::multiCondition` (lines
139-171): an if-scope whose condition is `if ( var & mask1 )` with a
resolved variable and a non-negative mask starts the else-if chain walk at
the link of the if-body's open brace. -/
def multiCondScope (toks : List Token) (s : Scope) : List MultiCondFinding :=
  if s.isIf && multiCondHeadMatch toks s.classDef then
    let varid := varIdAt toks (s.classDef + 2)
    if varid == 0 then []
    else
      let num1 := numAt toks (s.classDef + 4)
      if num1 < 0 then []
      else
        (multiCondWalk toks varid num1 (lineAt toks s.classDef)
          (toks.length + 1) (linkAt toks (s.classDef + 6))).getD []
  else []

/-- `CheckAssignIf::multiCondition` (lines 132-173): every scope of the
symbol database's scope list is tried. -/
def multiCondition (toks : List Token) (scopes : List Scope) : List MultiCondFinding :=
  (scopes.map (multiCondScope toks)).flatten

/-- Modelled from the spec: the single section 4.2 criterion for the OR
combinator, `isSubsetMask(m, t)` fails, i.e. `(m & t) != m` — equality of
an OR-masked value with the target is impossible exactly then. -/
def specOrImpossible (m t : Int) : Bool := Int.land m t != m

/-- The read-only inputs of the three analyses: the token stream and the
scope list of the symbol database. -/
structure AnalysisInput where
  toks : List Token
  scopes : List Scope
deriving DecidableEq

/-- One joint run of the three analyses, in explicit state-passing form:
the code traverses the token stream and the scope list through pointers to
const and never writes, so the post-state of a run is the input itself. -/
def runAll (s : AnalysisInput) :
    (List AssignIfFinding × List ComparisonFinding × List MultiCondFinding) × AnalysisInput :=
  ((assignIf s.toks, comparison s.toks, multiCondition s.toks s.scopes), s)

/-- Token stream of `; x = y & 3 ; if ( x == 5 )` with `x` resolved to
variable identity 1. -/
def streamEqFive : List Token :=
  [tokS (";"), tokName ("x") 1, tokS ("="), tokName ("y") 2, tokS ("&"),
   tokNum ("3") 3, tokS (";"), tokS ("if"), tokS ("("), tokName ("x") 1,
   tokS ("=="), tokNum ("5") 5, tokS (")")]

/-- Token stream of `; x = y & 3 ; if ( x < 5 ) if ( x == 5 )`: a
non-qualifying `<` comparison on `x` precedes a qualifying `==` one. -/
def streamLtThenEq : List Token :=
  [tokS (";"), tokName ("x") 1, tokS ("="), tokName ("y") 2, tokS ("&"),
   tokNum ("3") 3, tokS (";"), tokS ("if"), tokS ("("), tokName ("x") 1,
   tokS ("<"), tokNum ("5") 5, tokS (")"), tokS ("if"), tokS ("("),
   tokName ("x") 1, tokS ("=="), tokNum ("5") 5, tokS (")")]

/-- Token stream of `; x = y & 0 ; if ( x == -1 )`: the comparison
constant decodes to a negative value. -/
def streamNegCmp : List Token :=
  [tokS (";"), tokName ("x") 1, tokS ("="), tokName ("y") 2, tokS ("&"),
   tokNum ("0") 0, tokS (";"), tokS ("if"), tokS ("("), tokName ("x") 1,
   tokS ("=="), tokNum ("-1") (-1), tokS (")")]

/-- Token stream of `; x = y & -1 ;`: the assignment mask is negative. -/
def streamNegMask : List Token :=
  [tokS (";"), tokName ("x") 1, tokS ("="), tokName ("y") 2, tokS ("&"),
   tokNum ("-1") (-1), tokS (";")]

/-- Token stream of `& -1 == 3 &&`: a negative first literal of the inline
pattern. -/
def streamNegInline1 : List Token :=
  [tokS ("&"), tokNum ("-1") (-1), tokS ("=="), tokNum ("3") 3, tokS ("&&")]

/-- Token stream of `& 3 == -1 &&`: a negative second literal of the
inline pattern. -/
def streamNegInline2 : List Token :=
  [tokS ("&"), tokNum ("3") 3, tokS ("=="), tokNum ("-1") (-1), tokS ("&&")]

/-- Token stream of `if ( x & -6 ) {` with bracket links: a negative first
mask of an else-if chain head. -/
def streamNegHead : List Token :=
  [tokS ("if"), tokLink ("(") 5, tokName ("x") 1, tokS ("&"),
   tokNum ("-6") (-6), tokLink (")") 1, tokS ("\x7b")]

/-- Token stream of `} else { if ( x == -2 ) {`: one else-if link whose
mask decodes to a negative value. -/
def streamNegLink : List Token :=
  [tokS ("\x7d"), tokS ("else"), tokS ("\x7b"), tokS ("if"), tokLink ("(") 8,
   tokName ("x") 1, tokS ("=="), tokNum ("-2") (-2), tokLink (")") 4, tokS ("\x7b")]

/-- Token stream of `( x & 1 ) == 3 &&` where the closing parenthesis
links to the first token of the stream, which has no preceding token. -/
def streamParenBad : List Token :=
  [tokLink ("(") 4, tokName ("x") 1, tokS ("&"), tokNum ("1") 1,
   tokLink (")") 0, tokS ("=="), tokNum ("3") 3, tokS ("&&")]

/-- Token stream of `( ( x & 4 ) == 5 )` where the inner closing
parenthesis's open bracket is preceded by an opening parenthesis. -/
def streamParenGood : List Token :=
  [tokLink ("(") 8, tokLink ("(") 5, tokName ("x") 1, tokS ("&"),
   tokNum ("4") 4, tokLink (")") 1, tokS ("=="), tokNum ("5") 5,
   tokLink (")") 0]

/-- Token stream of the three-link chain
`if ( x & 6 ) { } else { if ( x & 8 ) { } else { if ( x == 5 ) { } else {
if ( x == 2 ) { } } } }` with all bracket links; the first `if` is on
source line 4 and only the third link's mask (2) is a subset of 6. -/
def streamChain : List Token :=
  [⟨"if", false, false, 0, 0, 4, none⟩, tokLink ("(") 5, tokName ("x") 1,
   tokS ("&"), tokNum ("6") 6, tokLink (")") 1, tokLink ("\x7b") 7,
   tokLink ("\x7d") 6, tokS ("else"), tokLink ("\x7b") 40, tokS ("if"),
   tokLink ("(") 15, tokName ("x") 1, tokS ("&"), tokNum ("8") 8,
   tokLink (")") 11, tokLink ("\x7b") 17, tokLink ("\x7d") 16, tokS ("else"),
   tokLink ("\x7b") 39, tokS ("if"), tokLink ("(") 25, tokName ("x") 1,
   tokS ("=="), tokNum ("5") 5, tokLink (")") 21, tokLink ("\x7b") 27,
   tokLink ("\x7d") 26, tokS ("else"), tokLink ("\x7b") 38, tokS ("if"),
   tokLink ("(") 35, tokName ("x") 1, tokS ("=="), tokNum ("2") 2,
   tokLink (")") 31, tokLink ("\x7b") 37, tokLink ("\x7d") 36,
   tokLink ("\x7d") 29, tokLink ("\x7d") 19, tokLink ("\x7d") 9]

/-- The scope list for `streamChain`: one if-scope whose condition starts
at token 0. -/
def scopesChain : List Scope := [⟨true, 0⟩]

/-- The stop test applied through the stream at index `j` (false when the
token is missing: the scan then stops for exhaustion, not for a stop
token). -/
def stopAtB (toks : List Token) (j : Nat) : Bool :=
  match toks[j]? with
  | some t => isStopTok t
  | none => false

/-- Index `j` holds a token that neither stops the forward scan nor starts
the comparison pattern: the scan steps over it. -/
def cleanAt (toks : List Token) (varid : Nat) (j : Nat) : Bool :=
  match toks[j]? with
  | some t => !(isStopTok t) && !(ifMatchAt toks varid j)
  | none => false

/-- An open parenthesis or open brace links forward, if it links at all. -/
def linkForwardB (i : Nat) (t : Token) : Bool :=
  if t.str == "(" || t.str == "\x7b" then
    match t.link with
    | some l => decide (i < l)
    | none => true
  else true

/-- Every open bracket of the stream links strictly forward: the
well-formedness of bracket links that the tokenizer guarantees. -/
def forwardLinks (toks : List Token) : Bool :=
  (List.range toks.length).all fun i =>
    match toks[i]? with
    | some t => linkForwardB i t
    | none => true

lemma strAt_some {toks : List Token} {j : Nat} {s : String} (h : strAt toks j = s)
    (hne : s ≠ "") : ∃ t, toks[j]? = some t ∧ t.str = s := by
  unfold strAt at h
  cases hj : toks[j]? with
  | none => rw [hj] at h; simp at h; exact absurd h.symm hne
  | some t => rw [hj] at h; simp at h; exact ⟨t, rfl, h⟩

lemma lt_length_of_strAt {toks : List Token} {j : Nat} {s : String}
    (h : strAt toks j = s) (hne : s ≠ "") : j < toks.length := by
  obtain ⟨t, ht, _⟩ := strAt_some h hne
  exact (List.getElem?_eq_some.mp ht).1

lemma isSome_of_strAt {toks : List Token} {j : Nat} {s : String}
    (h : strAt toks j = s) (hne : s ≠ "") : (toks[j]?).isSome = true := by
  obtain ⟨t, ht, _⟩ := strAt_some h hne
  rw [ht]; rfl

lemma nat_land_eq_iff_lor_eq (a b : Nat) : a &&& b = a ↔ a ||| b = b := by
  constructor
  · intro h
    apply Nat.eq_of_testBit_eq
    intro i
    have hi := congrArg (fun x => x.testBit i) h
    simp only [Nat.testBit_land] at hi
    simp only [Nat.testBit_lor]
    cases ha : a.testBit i <;> cases hb : b.testBit i <;> simp_all
  · intro h
    apply Nat.eq_of_testBit_eq
    intro i
    have hi := congrArg (fun x => x.testBit i) h
    simp only [Nat.testBit_lor] at hi
    simp only [Nat.testBit_land]
    cases ha : a.testBit i <;> cases hb : b.testBit i <;> simp_all

lemma int_land_eq_iff_lor_eq {m t : Int} (hm : 0 ≤ m) (ht : 0 ≤ t) :
    Int.land m t = m ↔ Int.lor m t = t := by
  lift m to ℕ using hm
  lift t to ℕ using ht
  rw [show Int.land (m : Int) (t : Int) = ((m &&& t : Nat) : Int) from rfl,
    show Int.lor (m : Int) (t : Int) = ((m ||| t : Nat) : Int) from rfl,
    Nat.cast_inj, Nat.cast_inj]
  exact nat_land_eq_iff_lor_eq m t

/-- Claim C3: OR-combinator rule equivalence.  For all non-negative `m`
and `t`, the direct-assignment analysis's OR test (`assignIfCond` with
bit operator `|`, i.e. `(m & t) != m`), the inline analysis's OR test
(`comparisonCond` with `|`, i.e. `(m | t) != t`), and the spec's section
4.2 criterion (`specOrImpossible`, failure of `isSubsetMask(m, t)`) are
the same predicate. -/
theorem orTest_equivalence (m t : Int) (hm : 0 ≤ m) (ht : 0 ≤ t) :
    assignIfCond '|' m t = specOrImpossible m t ∧
    comparisonCond ("|") m t = specOrImpossible m t := by
  constructor
  · rfl
  · unfold comparisonCond specOrImpossible
    simp only [show (("|" : String) == "&") = false from rfl,
      show (("|" : String) == "|") = true from rfl, Bool.false_and, Bool.true_and,
      Bool.false_or]
    rw [Bool.eq_iff_iff, bne_iff_ne, bne_iff_ne]
    exact not_iff_not.mpr (int_land_eq_iff_lor_eq hm ht).symm

/-- Witness for claim C3 at `m = 5`, `t = 3`. -/
theorem orTest_equivalence_witness :
    assignIfCond '|' 5 3 = specOrImpossible 5 3 ∧
    comparisonCond ("|") 5 3 = specOrImpossible 5 3 :=
  orTest_equivalence 5 3 (by decide) (by decide)

/-- Claim C9: determinism and input preservation.  A run of the three
analyses leaves the input state unchanged, and a second run on the
post-state of the first produces the identical findings: the embedding of
the const-only traversal is a pure function of the input. -/
theorem analyses_deterministic (s : AnalysisInput) :
    (runAll s).2 = s ∧ (runAll (runAll s).2).1 = (runAll s).1 :=
  ⟨rfl, rfl⟩

lemma ifMatchAt_str {toks : List Token} {varid i : Nat}
    (h : ifMatchAt toks varid i = true) : strAt toks i = "if" := by
  unfold ifMatchAt at h
  simp only [Bool.and_eq_true, beq_iff_eq] at h
  exact h.1.1.1.1.1

lemma assignMatchAt_str {toks : List Token} {i : Nat}
    (h : assignMatchAt toks i = true) : strAt toks i = "=" := by
  unfold assignMatchAt at h
  simp only [Bool.and_eq_true, beq_iff_eq] at h
  exact h.1.1.1.1.2

lemma evalIf_of_clean_scan (toks : List Token) (varid : Nat) (bitop : Char) (num : Int)
    (k : Nat) (hifm : ifMatchAt toks varid k = true) :
    ∀ fuel i, i ≤ k → k < i + fuel →
      (∀ j, j < k → i ≤ j → cleanAt toks varid j = true) →
      scanFrom toks varid bitop num fuel i = evalIf toks bitop num k := by
  intro fuel
  induction fuel with
  | zero => intro i h1 h2 _; omega
  | succ fuel ih =>
    intro i h1 h2 h3
    rcases Nat.lt_or_ge i k with hlt | hge
    · have hc := h3 i hlt (Nat.le_refl i)
      unfold cleanAt at hc
      cases hj : toks[i]? with
      | none => rw [hj] at hc; exact absurd hc (by simp)
      | some t =>
        rw [hj] at hc
        simp only [Bool.and_eq_true, Bool.not_eq_true'] at hc
        simp only [scanFrom]
        rw [hj]
        simp only [hc.1, hc.2, Bool.false_eq_true, if_false]
        exact ih (i+1) hlt (by omega) (fun j hj2 hij => h3 j hj2 (by omega))
    · have hik : i = k := Nat.le_antisymm h1 (by omega)
      subst hik
      have hs : strAt toks i = "if" := ifMatchAt_str hifm
      obtain ⟨t, hj, hts⟩ := strAt_some hs (by simp)
      have hstop : isStopTok t = false := by
        unfold isStopTok
        rw [hts]
        rfl
      simp only [scanFrom]
      rw [hj]
      simp only [hstop, Bool.false_eq_true, if_false, hifm, if_true]

/-- Claim C1: direct-assignment analysis, AND combinator.  For a statement
`var = var2 & m;` (matched at the `=` token at index `i`) with nonzero
variable identity and non-negative `m`, when the forward scan reaches the
comparison pattern at index `k` first (every index between the scan start
and `k` holds a token that neither stops the scan nor matches the
pattern), an `==` comparison against `t2` yields the always-false finding
exactly when `(m & t2) != t2`, a `!=` comparison yields the always-true
finding exactly then, and when `(m & t2) == t2` no finding comes from this
assignment. -/
theorem assignIf_and_rule
    (toks : List Token) (i k : Nat) (varid : Nat) (m t2 : Int)
    (hmatch : assignMatchAt toks i = true)
    (hvar : varIdAt toks (i-1) = varid)
    (hv0 : varid ≠ 0)
    (hamp : strAt toks (i+2) = "&")
    (hm : numAt toks (i+3) = m)
    (hm0 : 0 ≤ m)
    (hclean : ∀ j, j < k → i + 4 ≤ j → cleanAt toks varid j = true)
    (hifm : ifMatchAt toks varid k = true)
    (hk : i + 4 ≤ k)
    (ht : numAt toks (k+4) = t2) :
    (strAt toks (k+3) = "==" →
      assignIfAt toks i = (if Int.land m t2 ≠ t2 then some ⟨k, false⟩ else none) ∧
      (Int.land m t2 ≠ t2 → AssignIfFinding.mk k false ∈ assignIf toks)) ∧
    (strAt toks (k+3) = "!=" →
      assignIfAt toks i = (if Int.land m t2 ≠ t2 then some ⟨k, true⟩ else none) ∧
      (Int.land m t2 ≠ t2 → AssignIfFinding.mk k true ∈ assignIf toks)) := by
  have hklen : k < toks.length := lt_length_of_strAt (ifMatchAt_str hifm) (by simp)
  have hscan : scanFrom toks varid '&' m toks.length (i+4) = evalIf toks '&' m k :=
    evalIf_of_clean_scan toks varid '&' m k hifm toks.length (i+4) hk (by omega)
      (fun j hj hij => hclean j hj hij)
  have hAt : assignIfAt toks i = evalIf toks '&' m k := by
    unfold assignIfAt
    rw [hvar, hamp, hm]
    have hv : (varid == 0) = false := beq_eq_false_iff_ne.mpr hv0
    simp only [hmatch, if_true, hv, Bool.false_eq_true, if_false,
      show ("&" : String).front = '&' from rfl, not_lt.mpr hm0, if_neg (not_lt.mpr hm0)]
    exact hscan
  have hmem : ∀ f, assignIfAt toks i = some f → f ∈ assignIf toks := by
    intro f hf
    have hil : i < toks.length := lt_length_of_strAt (assignMatchAt_str hmatch) (by simp)
    exact List.mem_filterMap.mpr ⟨i, List.mem_range.mpr hil, hf⟩
  constructor
  · intro hop
    have heval : evalIf toks '&' m k = (if Int.land m t2 ≠ t2 then some ⟨k, false⟩ else none) := by
      unfold evalIf assignIfCond
      rw [hop, ht]
      by_cases hc : Int.land m t2 = t2
      · simp [hc]
      · simp [hc, bne_iff_ne]
    refine ⟨hAt.trans heval, fun hne => hmem _ ?_⟩
    rw [hAt, heval, if_pos hne]
  · intro hop
    have heval : evalIf toks '&' m k = (if Int.land m t2 ≠ t2 then some ⟨k, true⟩ else none) := by
      unfold evalIf assignIfCond
      rw [hop, ht]
      by_cases hc : Int.land m t2 = t2
      · simp [hc]
      · simp [hc, bne_iff_ne]
    refine ⟨hAt.trans heval, fun hne => hmem _ ?_⟩
    rw [hAt, heval, if_pos hne]

/-- Witness for claim C1 on `; x = y & 3 ; if ( x == 5 )`: the comparison
is always false because `3 & 5 = 1` differs from `5`. -/
theorem assignIf_and_rule_witness :
    assignIfAt streamEqFive 2 = some ⟨7, false⟩ ∧
    AssignIfFinding.mk 7 false ∈ assignIf streamEqFive := by
  have h := (assignIf_and_rule streamEqFive 2 7 1 3 5 (by decide) (by decide) (by decide)
    (by decide) (by decide) (by decide) (by decide) (by decide) (by decide) (by decide)).1
    (by decide)
  exact ⟨h.1.trans (if_pos (by decide)), h.2 (by decide)⟩

lemma evalIf_anchor {toks : List Token} {bitop : Char} {num : Int} {i : Nat}
    {f : AssignIfFinding} (h : evalIf toks bitop num i = some f) : f.anchor = i := by
  unfold evalIf at h
  dsimp only at h
  split at h
  · rw [← Option.some.inj h]
  · split at h
    · rw [← Option.some.inj h]
    · exact absurd h (by simp)

/-- Claim C5: stop-token bound of the direct-assignment forward scan.  Any
finding the scan produces is anchored at or after the scan start, and no
index from the start through the anchor holds a stop token (an open
parenthesis, a closing brace, or `=`): the scan stops without reporting at
the first stop token, so no finding lies beyond it. -/
theorem scan_stop_bound (toks : List Token) (varid : Nat) (bitop : Char) (num : Int) :
    ∀ fuel i f, scanFrom toks varid bitop num fuel i = some f →
      i ≤ f.anchor ∧ ∀ j, i ≤ j → j ≤ f.anchor → stopAtB toks j = false := by
  intro fuel
  induction fuel with
  | zero => intro i f h; exact absurd h (by simp [scanFrom])
  | succ fuel ih =>
    intro i f h
    simp only [scanFrom] at h
    split at h
    · exact absurd h (by simp)
    · rename_i t hj
      split at h
      · exact absurd h (by simp)
      · rename_i hstop
        have hstop2 : isStopTok t = false := by
          revert hstop; cases isStopTok t <;> simp
        split at h
        · have ha := evalIf_anchor h
          refine ⟨by omega, ?_⟩
          intro j hij hja
          have hji : j = i := by omega
          subst hji
          unfold stopAtB
          rw [hj]
          exact hstop2
        · obtain ⟨h1, h2⟩ := ih (i+1) f h
          refine ⟨by omega, ?_⟩
          intro j hij hja
          rcases Nat.eq_or_lt_of_le hij with he | hlt
          · subst he
            unfold stopAtB
            rw [hj]
            exact hstop2
          · exact h2 j (by omega) hja

/-- Witness for claim C5 on `; x = y & 3 ; if ( x == 5 )`: the finding at
index 7 lies in a stop-token-free region of the scan. -/
theorem scan_stop_bound_witness :
    (6 : Nat) ≤ 7 ∧ ∀ j, 6 ≤ j → j ≤ 7 → stopAtB streamEqFive j = false := by
  have h := scan_stop_bound streamEqFive 1 '&' 3 13 6 ⟨7, false⟩ (by decide)
  exact h

/-- Counterexample to claim C6 on `; x = y & 3 ; if ( x < 5 ) if ( x == 5 )`:
the `<` comparison at index 7 matches the scan pattern and halts the scan,
so the later qualifying `==` comparison at index 13 — which satisfies the
reporting rule, `3 & 5 = 1` differs from `5` — is never evaluated and the
analysis emits nothing, while the claim requires the scan to look past the
non-qualifying comparison and report at the qualifying one. -/
theorem scan_first_match_halts_counterexample :
    assignIf streamLtThenEq = [] ∧
    ifMatchAt streamLtThenEq 1 7 = true ∧ strAt streamLtThenEq 10 = "<" ∧
    ifMatchAt streamLtThenEq 1 13 = true ∧ strAt streamLtThenEq 16 = "==" ∧
    Int.land 3 5 ≠ (5 : Int) := by decide

/-- Claim C6 as amended: the forward scan halts at the first token
matching the comparison pattern `if ( var CMP num2 <end> )` with ANY
single-token comparator; when that comparator is neither `==` nor `!=`
the scan produces no finding for the assignment (it does not look past
the matched comparison for a later qualifying one). -/
theorem scan_halts_at_nonqualifying
    (toks : List Token) (varid : Nat) (bitop : Char) (num : Int) (fuel i k : Nat)
    (hik : i ≤ k) (hfuel : k < i + fuel)
    (hclean : ∀ j, j < k → i ≤ j → cleanAt toks varid j = true)
    (hifm : ifMatchAt toks varid k = true)
    (hop1 : strAt toks (k+3) ≠ "==") (hop2 : strAt toks (k+3) ≠ "!=") :
    scanFrom toks varid bitop num fuel i = none := by
  rw [evalIf_of_clean_scan toks varid bitop num k hifm fuel i hik hfuel hclean]
  unfold evalIf
  simp [beq_eq_false_iff_ne.mpr hop1, beq_eq_false_iff_ne.mpr hop2]

/-- Witness for the amended claim C6 on
`; x = y & 3 ; if ( x < 5 ) if ( x == 5 )`: the scan from index 6 halts
with no finding at the `<` comparison. -/
theorem scan_halts_at_nonqualifying_witness :
    scanFrom streamLtThenEq 1 '&' 3 19 6 = none :=
  scan_halts_at_nonqualifying streamLtThenEq 1 '&' 3 19 6 7 (by decide) (by decide)
    (by decide) (by decide) (by decide) (by decide)

/-- Counterexample to claim C4 on `; x = y & 0 ; if ( x == -1 )`: the
comparison constant at index 11 is a number token decoding to the
negative value -1, yet the direct-assignment analysis emits a finding
(there is no negativity check on the comparison constant in `assignIf`),
while the claim requires every analysis to suppress the candidate. -/
theorem negative_suppression_counterexample :
    assignIf streamNegCmp = [AssignIfFinding.mk 7 false] ∧
    numberAt streamNegCmp 11 = true ∧ numAt streamNegCmp 11 < 0 := by decide

/-- Claim C4 as amended: a negative literal suppresses the finding at
every site that checks for it — the assignment mask of the
direct-assignment analysis, both literals of the inline analysis, and the
head mask and each link mask of the else-if chain analysis (where the walk
continues past the suppressed link) — but the direct-assignment analysis
does not check its comparison constant, and a negative constant there can
still produce a finding. -/
theorem negative_literal_suppression :
    (∀ toks i, numAt toks (i+3) < 0 → assignIfAt toks i = none) ∧
    (∀ toks i, numAt toks (i+1) < 0 → comparisonAt toks i = none) ∧
    (∀ toks i, numAt toks (compIdx toks i + 1) < 0 → comparisonAt toks i = none) ∧
    (∀ toks s, numAt toks (s.classDef + 4) < 0 → multiCondScope toks s = []) ∧
    (∀ toks varid num1 line1 fuel j, chainMatchAt toks j = true →
      numAt toks (j+7) < 0 →
      multiCondWalk toks varid num1 line1 (fuel+1) (some j) =
        multiCondWalk toks varid num1 line1 fuel (advanceChain toks j)) := by
  refine ⟨?_, ?_, ?_, ?_, ?_⟩
  · intro toks i h
    simp [assignIfAt, h]
  · intro toks i h
    simp [comparisonAt, h]
  · intro toks i h
    unfold comparisonAt
    dsimp only
    split
    · split
      · rfl
      · split <;> rfl
    · rfl
  · intro toks s h
    simp [multiCondScope, h]
  · intro toks varid num1 line1 fuel j hchain hneg
    simp [multiCondWalk, hchain, hneg]

/-- Witness for the amended claim C4 at each checked site. -/
theorem negative_literal_suppression_witness :
    assignIfAt streamNegMask 2 = none ∧
    comparisonAt streamNegInline1 0 = none ∧
    comparisonAt streamNegInline2 0 = none ∧
    multiCondScope streamNegHead (Scope.mk true 0) = [] ∧
    multiCondWalk streamNegLink 1 6 4 1 (some 0) =
      multiCondWalk streamNegLink 1 6 4 0 (advanceChain streamNegLink 0) :=
  ⟨negative_literal_suppression.1 streamNegMask 2 (by decide),
    negative_literal_suppression.2.1 streamNegInline1 0 (by decide),
    negative_literal_suppression.2.2.1 streamNegInline2 0 (by decide),
    negative_literal_suppression.2.2.2.1 streamNegHead (Scope.mk true 0) (by decide),
    negative_literal_suppression.2.2.2.2 streamNegLink 1 6 4 0 0 (by decide) (by decide)⟩

/-- Claim C7: inline parenthesis validation.  When the inline pattern's
optional closing parenthesis is present (the token at `i+2`), a finding
can only be emitted if the token immediately preceding that parenthesis's
matching open bracket is an opening parenthesis, `&&`, or `||`
(`parenValid`); when the validation fails the candidate is skipped with
no finding. -/
theorem comparison_paren_validation (toks : List Token) (i : Nat) :
    (∀ f, comparisonAt toks i = some f → strAt toks (i+2) = ")" →
      parenValid toks (i+2) = true) ∧
    (strAt toks (i+2) = ")" → parenValid toks (i+2) = false →
      comparisonAt toks i = none) := by
  constructor
  · intro f hf hp
    by_contra hv
    have hv2 : parenValid toks (i+2) = false := by
      revert hv; cases parenValid toks (i+2) <;> simp
    rw [comparisonAt.eq_def] at hf
    simp [hp, hv2] at hf
  · intro hp hv
    unfold comparisonAt
    simp [hp, hv]

/-- Witness for claim C7: the valid candidate of `( ( x & 4 ) == 5 )`
passes validation (its open bracket is preceded by `(`), and the candidate
of `( x & 1 ) == 3 &&` is skipped because its open bracket is the first
token of the stream. -/
theorem comparison_paren_validation_witness :
    parenValid streamParenGood 5 = true ∧ comparisonAt streamParenBad 2 = none :=
  ⟨(comparison_paren_validation streamParenGood 3).1
      (ComparisonFinding.mk 3 ("&") 4 5 ("==") false) (by decide) (by decide),
    (comparison_paren_validation streamParenBad 2).2 (by decide) (by decide)⟩

lemma scanFrom_some_match (toks : List Token) (varid : Nat) (bitop : Char) (num : Int) :
    ∀ fuel i f, scanFrom toks varid bitop num fuel i = some f →
      ifMatchAt toks varid f.anchor = true := by
  intro fuel
  induction fuel with
  | zero => intro i f h; exact absurd h (by simp [scanFrom])
  | succ fuel ih =>
    intro i f h
    simp only [scanFrom] at h
    split at h
    · exact absurd h (by simp)
    · split at h
      · exact absurd h (by simp)
      · split at h
        · rename_i hmm
          rw [evalIf_anchor h]
          exact hmm
        · exact ih (i+1) f h

lemma comparisonAt_some {toks : List Token} {i : Nat} {f : ComparisonFinding}
    (h : comparisonAt toks i = some f) :
    f.anchor = i ∧ comparisonMatchAt toks i = true := by
  rw [comparisonAt.eq_def] at h
  split at h
  · rename_i hm
    refine ⟨?_, hm⟩
    dsimp only at h
    split at h
    · exact absurd h (by simp)
    · split at h
      · exact absurd h (by simp)
      · split at h
        · exact absurd h (by simp)
        · split at h
          · rw [← Option.some.inj h]
          · exact absurd h (by simp)
  · exact absurd h (by simp)

lemma comparisonMatchAt_str {toks : List Token} {i : Nat}
    (h : comparisonMatchAt toks i = true) :
    strAt toks i = "&" ∨ strAt toks i = "|" := by
  unfold comparisonMatchAt at h
  simp only [Bool.and_eq_true, Bool.or_eq_true, beq_iff_eq] at h
  exact h.1.1

lemma multiCondCondMatch_str {toks : List Token} {varid o : Nat}
    (h : multiCondCondMatch toks varid o = true) : strAt toks o = "(" := by
  unfold multiCondCondMatch at h
  simp only [Bool.and_eq_true, beq_iff_eq] at h
  exact h.1.1.1.1

lemma multiCondWalk_mem (toks : List Token) (varid : Nat) (num1 : Int) (line1 : Nat) :
    ∀ fuel o fs, multiCondWalk toks varid num1 line1 fuel o = some fs →
      ∀ f, f ∈ fs → multiCondCondMatch toks varid f.anchor = true := by
  intro fuel
  induction fuel with
  | zero =>
    intro o fs h f hf
    cases o with
    | none =>
      simp only [multiCondWalk] at h
      rw [← Option.some.inj h] at hf
      exact absurd hf (by simp)
    | some j => exact absurd h (by simp [multiCondWalk])
  | succ fuel ih =>
    intro o fs h f hf
    cases o with
    | none =>
      simp only [multiCondWalk] at h
      rw [← Option.some.inj h] at hf
      exact absurd hf (by simp)
    | some j =>
      simp only [multiCondWalk] at h
      split at h
      · split at h
        · rename_i hcond
          split at h
          · exact ih _ fs h f hf
          · split at h
            · rcases Option.map_eq_some'.mp h with ⟨fs0, hw, hfs⟩
              subst hfs
              rcases List.mem_cons.mp hf with he | hm
              · subst he
                exact hcond
              · exact ih _ fs0 hw f hm
            · exact ih _ fs h f hf
        · exact ih _ fs h f hf
      · rw [← Option.some.inj h] at hf
        exact absurd hf (by simp)

lemma mem_getD_walk {toks : List Token} {varid : Nat} {num1 : Int} {line1 : Nat}
    {fuel : Nat} {o : Option Nat} {f : MultiCondFinding}
    (hf : f ∈ (multiCondWalk toks varid num1 line1 fuel o).getD []) :
    ∃ fs, multiCondWalk toks varid num1 line1 fuel o = some fs ∧ f ∈ fs := by
  cases hw : multiCondWalk toks varid num1 line1 fuel o with
  | none => rw [hw] at hf; exact absurd hf (by simp)
  | some fs => rw [hw] at hf; exact ⟨fs, rfl, hf⟩

lemma assignIfAt_some_scan {toks : List Token} {i : Nat} {f : AssignIfFinding}
    (h : assignIfAt toks i = some f) :
    ∃ varid bitop num, scanFrom toks varid bitop num toks.length (i+4) = some f := by
  unfold assignIfAt at h
  split at h
  · dsimp only at h
    split at h
    · exact absurd h (by simp)
    · split at h
      · exact absurd h (by simp)
      · exact ⟨varIdAt toks (i-1), (strAt toks (i+2)).front, numAt toks (i+3), h⟩
  · exact absurd h (by simp)

/-- Claim C8: anchor validity.  Every finding emitted by any of the three
analyses is anchored at an index that holds a token of the input stream;
no emitted finding carries a missing location. -/
theorem findings_anchor_valid (toks : List Token) :
    (∀ f, f ∈ assignIf toks → (toks[f.anchor]?).isSome = true) ∧
    (∀ f, f ∈ comparison toks → (toks[f.anchor]?).isSome = true) ∧
    (∀ scopes f, f ∈ multiCondition toks scopes → (toks[f.anchor]?).isSome = true) := by
  refine ⟨?_, ?_, ?_⟩
  · intro f hf
    obtain ⟨i, _, hAt⟩ := List.mem_filterMap.mp hf
    obtain ⟨varid, bitop, num, hscan⟩ := assignIfAt_some_scan hAt
    have hm := scanFrom_some_match toks varid bitop num toks.length (i+4) f hscan
    exact isSome_of_strAt (ifMatchAt_str hm) (by simp)
  · intro f hf
    obtain ⟨i, _, hAt⟩ := List.mem_filterMap.mp hf
    obtain ⟨ha, hm⟩ := comparisonAt_some hAt
    rw [ha]
    rcases comparisonMatchAt_str hm with hs | hs
    · exact isSome_of_strAt hs (by simp)
    · exact isSome_of_strAt hs (by simp)
  · intro scopes f hf
    obtain ⟨l, hl, hfl⟩ := List.mem_flatten.mp hf
    obtain ⟨s, _, hls⟩ := List.mem_map.mp hl
    rw [← hls] at hfl
    unfold multiCondScope at hfl
    split at hfl
    · dsimp only at hfl
      split at hfl
      · exact absurd hfl (by simp)
      · split at hfl
        · exact absurd hfl (by simp)
        · obtain ⟨fs, hw, hmem⟩ := mem_getD_walk hfl
          have hc := multiCondWalk_mem toks (varIdAt toks (s.classDef + 2))
            (numAt toks (s.classDef + 4)) (lineAt toks s.classDef)
            (toks.length + 1) (linkAt toks (s.classDef + 6)) fs hw f hmem
          exact isSome_of_strAt (multiCondCondMatch_str hc) (by simp)
    · exact absurd hfl (by simp)

/-- Witness for claim C8: one finding of each analysis, each anchored at a
present token. -/
theorem findings_anchor_valid_witness :
    (streamEqFive[7]?).isSome = true ∧ (streamParenGood[3]?).isSome = true ∧
    (streamChain[31]?).isSome = true :=
  ⟨(findings_anchor_valid streamEqFive).1 (AssignIfFinding.mk 7 false) (by decide),
    (findings_anchor_valid streamParenGood).2.1
      (ComparisonFinding.mk 3 ("&") 4 5 ("==") false) (by decide),
    (findings_anchor_valid streamChain).2.2 scopesChain (MultiCondFinding.mk 31 4) (by decide)⟩

/-- Claim C2: else-if chain analysis.  At every matching `} else { if (`
link the walk contributes exactly one always-false finding — anchored at
the link's condition parenthesis and citing the first if's line — when the
link's condition matches `( var CMP2 mask2 <end> )` on the chain's
variable with non-negative `mask2` and `(mask1 & mask2) == mask2`, and no
finding otherwise; the walk then continues to the rest of the chain with
the original `mask1`.  On the three-link chain `streamChain` (first mask
6; link masks 8, 5, 2) exactly one finding results, anchored at the third
link's condition (token 31) and citing line 4 of the first if. -/
theorem multiCondition_link_rule :
    (∀ toks varid num1 line1 fuel j, chainMatchAt toks j = true →
      multiCondWalk toks varid num1 line1 (fuel+1) (some j) =
        Option.map (fun fs =>
          (if multiCondCondMatch toks varid (j+4) = true ∧ 0 ≤ numAt toks (j+7) ∧
              Int.land num1 (numAt toks (j+7)) = numAt toks (j+7)
            then [MultiCondFinding.mk (j+4) line1] else []) ++ fs)
          (multiCondWalk toks varid num1 line1 fuel (advanceChain toks j))) ∧
    multiCondition streamChain scopesChain = [MultiCondFinding.mk 31 4] := by
  constructor
  · intro toks varid num1 line1 fuel j hchain
    simp only [multiCondWalk, hchain, if_true]
    by_cases hc : multiCondCondMatch toks varid (j+4) = true
    · by_cases hneg : numAt toks (j+7) < 0
      · rw [if_pos hc, if_pos hneg, if_neg (by intro hand; exact absurd hand.2.1 (by omega))]
        cases hw : multiCondWalk toks varid num1 line1 fuel (advanceChain toks j) <;> simp
      · by_cases hsub : Int.land num1 (numAt toks (j+7)) = numAt toks (j+7)
        · rw [if_pos hc, if_neg hneg, if_pos (beq_iff_eq.mpr hsub),
            if_pos ⟨hc, by omega, hsub⟩]
          cases hw : multiCondWalk toks varid num1 line1 fuel (advanceChain toks j) <;> simp
        · rw [if_pos hc, if_neg hneg, if_neg (by simp [hsub]),
            if_neg (by intro hand; exact absurd hand.2.2 hsub)]
          cases hw : multiCondWalk toks varid num1 line1 fuel (advanceChain toks j) <;> simp
    · rw [if_neg hc, if_neg (by intro hand; exact absurd hand.1 hc)]
      cases hw : multiCondWalk toks varid num1 line1 fuel (advanceChain toks j) <;> simp
  · decide

/-- Witness for claim C2: the link equation instantiated at the first link
of `streamChain` (cursor 7, condition at token 11, mask 8). -/
theorem multiCondition_link_rule_witness :
    multiCondWalk streamChain 1 6 4 5 (some 7) =
      Option.map (fun fs =>
        (if multiCondCondMatch streamChain 1 11 = true ∧ 0 ≤ numAt streamChain 14 ∧
            Int.land 6 (numAt streamChain 14) = numAt streamChain 14
          then [MultiCondFinding.mk 11 4] else []) ++ fs)
        (multiCondWalk streamChain 1 6 4 4 (advanceChain streamChain 7)) :=
  multiCondition_link_rule.1 streamChain 1 6 4 4 7 (by decide)

lemma forwardLinks_spec {toks : List Token} (h : forwardLinks toks = true) :
    ∀ i t, toks[i]? = some t → linkForwardB i t = true := by
  intro i t hit
  have hi : i < toks.length := (List.getElem?_eq_some.mp hit).1
  unfold forwardLinks at h
  rw [List.all_eq_true] at h
  have h2 := h i (List.mem_range.mpr hi)
  rw [hit] at h2
  exact h2

lemma chainMatchAt_str {toks : List Token} {j : Nat}
    (h : chainMatchAt toks j = true) : strAt toks j = "\x7d" := by
  unfold chainMatchAt at h
  simp only [Bool.and_eq_true, beq_iff_eq] at h
  exact h.1.1.1.1

lemma chainMatchAt_opar {toks : List Token} {j : Nat}
    (h : chainMatchAt toks j = true) : strAt toks (j+4) = "(" := by
  unfold chainMatchAt at h
  simp only [Bool.and_eq_true, beq_iff_eq] at h
  exact h.2

lemma linkAt_some {toks : List Token} {i l : Nat} (h : linkAt toks i = some l) :
    ∃ t, toks[i]? = some t ∧ t.link = some l := by
  unfold linkAt at h
  cases hit : toks[i]? with
  | none => rw [hit] at h; exact absurd h (by simp)
  | some t => rw [hit] at h; exact ⟨t, rfl, h⟩

lemma linkForward_of_strAt {toks : List Token} (hfl : forwardLinks toks = true)
    {i l : Nat} (hlk : linkAt toks i = some l)
    (hs : strAt toks i = "(" ∨ strAt toks i = "\x7b") : i < l := by
  obtain ⟨t, hit, htl⟩ := linkAt_some hlk
  have hb := forwardLinks_spec hfl i t hit
  have hts : t.str = "(" ∨ t.str = "\x7b" := by
    rcases hs with hs | hs
    · obtain ⟨t2, hit2, hts2⟩ := strAt_some hs (by simp)
      rw [hit2] at hit
      exact Or.inl (Option.some.inj hit ▸ hts2)
    · obtain ⟨t2, hit2, hts2⟩ := strAt_some hs (by simp)
      rw [hit2] at hit
      exact Or.inr (Option.some.inj hit ▸ hts2)
  unfold linkForwardB at hb
  have hcond : (t.str == "(" || t.str == "\x7b") = true := by
    rcases hts with hts | hts <;> simp [hts]
  rw [if_pos hcond, htl] at hb
  exact of_decide_eq_true hb

lemma advanceChain_forward {toks : List Token} (hfl : forwardLinks toks = true)
    {j j2 : Nat} (hchain : chainMatchAt toks j = true)
    (hadv : advanceChain toks j = some j2) : j < j2 := by
  unfold advanceChain at hadv
  cases hl : linkAt toks (j+4) with
  | none => rw [hl] at hadv; exact absurd hadv (by simp)
  | some e =>
    rw [hl] at hadv
    dsimp only at hadv
    have he : j + 4 < e :=
      linkForward_of_strAt hfl hl (Or.inl (chainMatchAt_opar hchain))
    by_cases hcond : (strAt toks e == ")" && strAt toks (e+1) == "\x7b") = true
    · rw [if_pos hcond] at hadv
      simp only [Bool.and_eq_true, beq_iff_eq] at hcond
      have he2 : e + 1 < j2 := linkForward_of_strAt hfl hadv (Or.inr hcond.2)
      omega
    · rw [if_neg hcond] at hadv
      have he2 : e = j2 := Option.some.inj hadv
      omega

lemma isSome_map_eq {α β : Type} (f : α → β) (w : Option α) :
    (Option.map f w).isSome = w.isSome := by
  cases w <;> rfl

/-- Claim C10: chain-walk termination.  On a stream whose open brackets
link strictly forward, the else-if chain walk never exhausts a fuel
larger than the difference between the stream length and the cursor: each
matching link advances the cursor strictly forward through bracket links,
and a missing link or a failed match ends the loop.  In particular the
fuel `toks.length + 1` used by `multiCondScope` always suffices. -/
theorem multiCondWalk_terminates (toks : List Token) (varid : Nat) (num1 : Int)
    (line1 : Nat) (hfl : forwardLinks toks = true) :
    ∀ fuel j, toks.length - j < fuel →
      (multiCondWalk toks varid num1 line1 fuel (some j)).isSome = true := by
  intro fuel
  induction fuel with
  | zero => intro j hj; omega
  | succ fuel ih =>
    intro j hj
    by_cases hchain : chainMatchAt toks j = true
    · have hjlen : j < toks.length :=
        lt_length_of_strAt (chainMatchAt_str hchain) (by simp)
      have hnext : (multiCondWalk toks varid num1 line1 fuel (advanceChain toks j)).isSome = true := by
        cases hadv : advanceChain toks j with
        | none => simp [multiCondWalk]
        | some j2 =>
          have hj2 := advanceChain_forward hfl hchain hadv
          exact ih j2 (by omega)
      simp only [multiCondWalk, hchain, if_true]
      split
      · split
        · exact hnext
        · split
          · rw [isSome_map_eq]
            exact hnext
          · exact hnext
      · exact hnext
    · simp [multiCondWalk, hchain]

/-- Witness for claim C10 on `streamChain` (41 tokens, walk started at the
first if-body's closing brace, token 7, with the caller's fuel 42). -/
theorem multiCondWalk_terminates_witness :
    (multiCondWalk streamChain 1 6 4 42 (some 7)).isSome = true :=
  multiCondWalk_terminates streamChain 1 6 4 (by decide) 42 7 (by decide)
